import Mathlib

/-!
Shallow embedding of `src/pdfNotes/export_pdf_annotations_v2.py` and proofs
about it.  Python strings are modelled as Lean `String`/`List Char`, Python
ints as `Int`/`Nat`, fallible library calls as `Option`/`Except`, and the
annotation loop as a fold over an explicit list of pages of annotations.
-/

namespace PdfNotes

/-! ### Python string primitives used by the script -/

/-- Characters matched by Python's `\s` on the ASCII range (the script only
strips/removes whitespace; `re.sub(r"\s+", ...)` and `str.strip()`). -/
def isPySpace (c : Char) : Bool :=
  c = ' ' || c = '\t' || c = '\n' || c = '\r' || c = '\x0b' || c = '\x0c'

/-- `str.strip()` on a character list. -/
def pyStripList (cs : List Char) : List Char :=
  ((cs.dropWhile isPySpace).reverse.dropWhile isPySpace).reverse

/-- `str.strip()`. -/
def pyStrip (s : String) : String := (pyStripList s.toList).asString

/-- `str.rstrip()`. -/
def pyRstrip (s : String) : String :=
  (s.toList.reverse.dropWhile isPySpace).reverse.asString

/-- `str.splitlines()` worker: scans the characters, accumulating the current
line (reversed) and splitting at `\r\n`, `\r` or `\n`. -/
def pySplitlinesAux : List Char → List Char → List String
  | [], acc => if acc.isEmpty then [] else [acc.reverse.asString]
  | '\r' :: '\n' :: rest, acc => acc.reverse.asString :: pySplitlinesAux rest []
  | '\r' :: rest, acc => acc.reverse.asString :: pySplitlinesAux rest []
  | '\n' :: rest, acc => acc.reverse.asString :: pySplitlinesAux rest []
  | c :: rest, acc => pySplitlinesAux rest (c :: acc)

/-- `str.splitlines()`. -/
def pySplitlines (s : String) : List String := pySplitlinesAux s.toList []

/-- `s.replace("\\", "/")` (single-character needle, so a plain map). -/
def pyReplaceBS (s : String) : String :=
  (s.toList.map (fun c => if c = '\\' then '/' else c)).asString

/-- Index of the last occurrence of `c`, if any (Python `str.rfind`). -/
def lastIdx (c : Char) : List Char → Option Nat
  | [] => none
  | d :: rest =>
    match lastIdx c rest with
    | some i => some (i + 1)
    | none => if d = c then some 0 else none

/-- `posixpath.basename`. -/
def pyBasename (s : String) : String :=
  match lastIdx '/' s.toList with
  | none => s
  | some i => (s.toList.drop (i + 1)).asString

/-- `posixpath.dirname`. -/
def pyDirname (s : String) : String :=
  match lastIdx '/' s.toList with
  | none => ""
  | some i =>
    let head := s.toList.take (i + 1)
    if head.all (fun c => c = '/') then head.asString
    else (head.reverse.dropWhile (fun c => c = '/')).reverse.asString

/-- `os.path.join(a, b)` for a single extra component (posix rules). -/
def pyJoin2 (a b : String) : String :=
  if b.toList.head? = some '/' then b
  else if a = "" || a.toList.getLast? = some '/' then a ++ b
  else a ++ "/" ++ b

/-- Root part of `os.path.splitext`: the extension starts at the last dot of
the basename provided some earlier character of the basename is not a dot. -/
def splitextRoot (s : String) : String :=
  let cs := s.toList
  let sep : Int := match lastIdx '/' cs with | none => -1 | some i => (i : Int)
  let dot : Int := match lastIdx '.' cs with | none => -1 | some i => (i : Int)
  if sep < dot then
    if (List.range cs.length).any
        (fun j => decide (sep < (j : Int)) && decide ((j : Int) < dot) &&
          decide (cs.get? j ≠ some '.')) then
      (cs.take dot.toNat).asString
    else s
  else s

/-- Python `a or b` on strings (empty string is falsy). -/
def pyOrS (a b : String) : String := if a = "" then b else a

/-! ### `make_safe_filename` -/

/-- The character class `[A-Za-z0-9_-]` of `_FILENAME_ALLOWED_RE`. -/
def isAllowedChar (c : Char) : Bool :=
  ('A' ≤ c && c ≤ 'Z') || ('a' ≤ c && c ≤ 'z') || ('0' ≤ c && c ≤ '9') ||
    c = '_' || c = '-'

/-- `make_safe_filename(*parts)`: join the parts with `_`, drop spaces
(`replace(" ", "")`), then delete every character outside `[A-Za-z0-9_-]`
(the regex substitution with the empty string). -/
def make_safe_filename (parts : List String) : String :=
  let base := String.intercalate "_" parts
  let base := (base.toList.filter (fun c => c ≠ ' ')).asString
  (base.toList.filter isAllowedChar).asString

/-! ### Color classification -/

/-- Squared Euclidean distance between two RGB triples, as in
`(r - rr) ** 2 + (g - gg) ** 2 + (b - bb) ** 2`. -/
def dist2 (p q : Int × Int × Int) : Int :=
  (p.1 - q.1) * (p.1 - q.1) + (p.2.1 - q.2.1) * (p.2.1 - q.2.1) +
    (p.2.2 - q.2.2) * (p.2.2 - q.2.2)

/-- The five reference points of `categorize_color`, in dict insertion
order. -/
def refsList : List (String × (Int × Int × Int)) :=
  [("yellow", (255, 212, 0)), ("red", (230, 0, 0)), ("blue", (0, 112, 192)),
    ("green", (0, 176, 80)), ("purple", (128, 0, 128))]

/-- One step of the loop in `categorize_color`: `best_d` starts at
`float("inf")` (modelled by `none`, which every finite distance beats) and is
replaced exactly when `d < best_d`. -/
def categorizeStep (rgb : Int × Int × Int) (acc : String × Option Int)
    (kv : String × (Int × Int × Int)) : String × Option Int :=
  match acc.2 with
  | none => (kv.1, some (dist2 rgb kv.2))
  | some bd =>
    if dist2 rgb kv.2 < bd then (kv.1, some (dist2 rgb kv.2)) else acc

/-- `categorize_color(rgb)`. -/
def categorize_color (rgb : Int × Int × Int) : String :=
  (refsList.foldl (categorizeStep rgb) ("yellow", (none : Option Int))).1

/-- The key order used when emitting sections (`order = [...]`). -/
def orderKeys : List String := ["yellow", "red", "blue", "green", "purple"]

/-- `COLOR_TITLES`. -/
def colorTitle : String → String
  | "yellow" => "黄色（重点）"
  | "red" => "红色（问题）"
  | "blue" => "蓝色（方法）"
  | "green" => "绿色（具体实验细节）"
  | "purple" => "紫色（论文概括）"
  | _ => ""

/-! ### Facts about `categorize_color` -/

/-- Invariant of the `categorize_color` loop once `best_d` is finite: the
result's distance is at most the incoming best and at most every distance in
the remaining list, and the result is either the incoming best key with its
distance or some key of the list with its own distance. -/
theorem categorize_foldl_spec (rgb : Int × Int × Int) :
    ∀ (l : List (String × (Int × Int × Int))) (bk : String) (bd : Int),
      ∃ d', (l.foldl (categorizeStep rgb) (bk, some bd)).2 = some d' ∧
        d' ≤ bd ∧ (∀ kv ∈ l, d' ≤ dist2 rgb kv.2) ∧
        (((l.foldl (categorizeStep rgb) (bk, some bd)).1 = bk ∧ d' = bd) ∨
          ∃ kv ∈ l, (l.foldl (categorizeStep rgb) (bk, some bd)).1 = kv.1 ∧
            d' = dist2 rgb kv.2) := by
  intro l
  induction l with
  | nil =>
    intro bk bd
    refine ⟨bd, rfl, le_refl _, ?_, Or.inl ⟨rfl, rfl⟩⟩
    intro kv h; cases h
  | cons kv rest ih =>
    intro bk bd
    by_cases h : dist2 rgb kv.2 < bd
    · have hstep : categorizeStep rgb (bk, some bd) kv =
          (kv.1, some (dist2 rgb kv.2)) := by
        simp [categorizeStep, h]
      obtain ⟨d', hd', hle, hall, hcases⟩ := ih kv.1 (dist2 rgb kv.2)
      refine ⟨d', ?_, ?_, ?_, ?_⟩
      · simpa [List.foldl_cons, hstep] using hd'
      · exact le_trans hle (le_of_lt h)
      · intro kv' hkv'
        rcases List.mem_cons.mp hkv' with hkv' | hkv'
        · subst hkv'; exact hle
        · exact hall kv' hkv'
      · rcases hcases with ⟨hfst, hdd⟩ | ⟨kv', hkv', hfst, hdd⟩
        · refine Or.inr ⟨kv, List.mem_cons_self _ _, ?_, hdd⟩
          simpa [List.foldl_cons, hstep] using hfst
        · refine Or.inr ⟨kv', List.mem_cons_of_mem _ hkv', ?_, hdd⟩
          simpa [List.foldl_cons, hstep] using hfst
    · have hstep : categorizeStep rgb (bk, some bd) kv = (bk, some bd) := by
        simp [categorizeStep, h]
      obtain ⟨d', hd', hle, hall, hcases⟩ := ih bk bd
      refine ⟨d', ?_, hle, ?_, ?_⟩
      · simpa [List.foldl_cons, hstep] using hd'
      · intro kv' hkv'
        rcases List.mem_cons.mp hkv' with hkv' | hkv'
        · subst hkv'; exact le_trans hle (not_lt.mp h)
        · exact hall kv' hkv'
      · rcases hcases with ⟨hfst, hdd⟩ | ⟨kv', hkv', hfst, hdd⟩
        · refine Or.inl ⟨?_, hdd⟩
          simpa [List.foldl_cons, hstep] using hfst
        · refine Or.inr ⟨kv', List.mem_cons_of_mem _ hkv', ?_, hdd⟩
          simpa [List.foldl_cons, hstep] using hfst

/-- `categorize_color` always returns a key paired in `refsList` with a
reference point of minimal squared distance. -/
theorem categorize_color_spec (rgb : Int × Int × Int) :
    ∃ ref, (categorize_color rgb, ref) ∈ refsList ∧
      ∀ kv ∈ refsList, dist2 rgb ref ≤ dist2 rgb kv.2 := by
  have hhead :
      refsList.foldl (categorizeStep rgb) ("yellow", (none : Option Int)) =
        (refsList.drop 1).foldl (categorizeStep rgb)
          ("yellow", some (dist2 rgb (255, 212, 0))) := by
    simp [refsList, List.foldl_cons, categorizeStep]
  obtain ⟨d', hd', hle, hall, hcases⟩ :=
    categorize_foldl_spec rgb (refsList.drop 1) "yellow"
      (dist2 rgb (255, 212, 0))
  have hmin : ∀ kv ∈ refsList, d' ≤ dist2 rgb kv.2 := by
    intro kv hkv
    rcases List.mem_cons.mp hkv with hkv | hkv
    · subst hkv; exact hle
    · exact hall kv hkv
  rcases hcases with ⟨hfst, hdd⟩ | ⟨kv, hkv, hfst, hdd⟩
  · refine ⟨(255, 212, 0), ?_, ?_⟩
    · have : categorize_color rgb = "yellow" := by
        simpa [categorize_color, hhead] using hfst
      rw [this]; simp [refsList]
    · intro kv hkv
      have := hmin kv hkv
      omega
  · refine ⟨kv.2, ?_, ?_⟩
    · have : categorize_color rgb = kv.1 := by
        simpa [categorize_color, hhead] using hfst
      rw [this]
      exact List.mem_of_mem_drop hkv
    · intro kv' hkv'
      have := hmin kv' hkv'
      omega

/-- The returned key is one of the five keys of `orderKeys`. -/
theorem categorize_color_mem (rgb : Int × Int × Int) :
    categorize_color rgb ∈ orderKeys := by
  obtain ⟨ref, hmem, -⟩ := categorize_color_spec rgb
  have : ∀ kv ∈ refsList, (kv : String × (Int × Int × Int)).1 ∈ orderKeys := by
    intro kv hkv
    fin_cases hkv <;> simp [orderKeys]
  simpa using this _ hmem

/-! ### `rgb_from_annot` -/

/-- Truthiness of a color value handed back by PyMuPDF (`None` or an empty
sequence is falsy). -/
def pyTruthyColor : Option (List ℚ) → Bool
  | none => false
  | some l => !l.isEmpty

/-- Python `int(q)`: truncation toward zero. -/
def pyInt (q : ℚ) : Int := if 0 ≤ q then ⌊q⌋ else -⌊-q⌋

/-- `rgb_from_annot(annot)`.  The input is the outcome of reading
`annot.colors`: `none` when the attribute access raises, otherwise the
`stroke` and `fill` entries.  A color of the wrong arity makes the tuple
unpacking raise (`.error`). -/
def rgb_from_annot (access : Option (Option (List ℚ) × Option (List ℚ))) :
    Except Unit (Int × Int × Int) :=
  let color : Option (List ℚ) :=
    match access with
    | none => none
    | some (stroke, fill) => if pyTruthyColor stroke then stroke else fill
  if pyTruthyColor color = false then Except.ok (255, 212, 0)
  else
    match color with
    | some [r, g, b] =>
      Except.ok (pyInt (r * 255), pyInt (g * 255), pyInt (b * 255))
    | _ => Except.error ()

/-! ### The annotation loop

One observed annotation of the chain.  `typeCode` is the integer
`annot.type[0]` (PyMuPDF: Text=0, FreeText=2, Square=4, Circle=5,
Highlight=8, Underline=9, StrikeOut=11); `color` is the triple produced by
`rgb_from_annot`; `extractedText` is what `extract_highlight_text` returned;
`content` is `(annot.info or {}).get("content") or ""`; `saveOk` tells
whether `save_rect_image` succeeded; `clipRaw` is the raw
`page.get_text("text", clip=rect)` for shape annotations; `rawRect` is the
annotation's rectangle, which the Markdown assembly never reads directly. -/
structure Annot where
  typeCode : Nat
  color : Int × Int × Int
  extractedText : String
  content : String
  saveOk : Bool
  clipRaw : String
  rawRect : Int × Int × Int × Int
  deriving DecidableEq

/-- The part of an annotation the loop body actually observes. -/
structure AnnotObs where
  typeCode : Nat
  color : Int × Int × Int
  extractedText : String
  content : String
  saveOk : Bool
  clipRaw : String
  deriving DecidableEq

/-- Projection onto the observed attributes. -/
def obsOf (a : Annot) : AnnotObs :=
  ⟨a.typeCode, a.color, a.extractedText, a.content, a.saveOk, a.clipRaw⟩

/-- `re.sub(r"\s+", "", text or "")`. -/
def normalize_highlight_text (s : String) : String :=
  (s.toList.filter (fun c => !isPySpace c)).asString

/-- The grouping containers of `export_pdf_annotations`: the two
`defaultdict(list)`s are total maps sending unseen keys to `[]`. -/
structure Groups where
  highlights : String → List String
  notes : List String
  rects : String → List (Option String × Option String)

/-- Initial (empty) containers. -/
def emptyGroups : Groups := ⟨fun _ => [], [], fun _ => []⟩

/-- `highlight_groups[k].append(t)`. -/
def addHighlight (g : Groups) (k t : String) : Groups :=
  { g with highlights := fun k' =>
      if k' = k then g.highlights k' ++ [t] else g.highlights k' }

/-- `rect_groups[k].append(e)`. -/
def addRect (g : Groups) (k : String) (e : Option String × Option String) :
    Groups :=
  { g with rects := fun k' =>
      if k' = k then g.rects k' ++ [e] else g.rects k' }

/-- `subtype = (annot.type[0] if ... else annot.type) or ""`.  The integer
`0` is falsy in Python, so a Text annotation's code becomes the empty string
(modelled by `none`), which then compares unequal to every integer
constant. -/
def subtypeOf (typeCode : Nat) : Option Nat :=
  if typeCode = 0 then none else some typeCode

/-- The note content normalisation
`"\n".join(ln.strip() for ln in content.splitlines() if ln.strip())`. -/
def noteContent (content : String) : String :=
  String.intercalate "\n"
    ((pySplitlines content).filterMap
      (fun ln => if pyStrip ln = "" then none else some (pyStrip ln)))

/-- `page.get_text("text", clip=rect).strip() or None`. -/
def clipTextOf (clipRaw : String) : Option String :=
  if pyStrip clipRaw = "" then none else some (pyStrip clipRaw)

/-- The body of the annotation loop, acting on the observed attributes.
State is the per-page `rect_index` together with the grouping containers. -/
def processObs (stem imgdir : String) (pageIndex : Nat) (s : Nat × Groups)
    (a : AnnotObs) : Nat × Groups :=
  let st := subtypeOf a.typeCode
  if st = some 8 then
    let txt := normalize_highlight_text a.extractedText
    if txt = "" then s
    else (s.1, addHighlight s.2 (categorize_color a.color) txt)
  else if st = some 0 ∨ st = some 2 then
    let content := noteContent a.content
    if content = "" then s
    else (s.1, { s.2 with notes := s.2.notes ++ [content] })
  else if st = some 4 ∨ st = some 5 then
    let n := s.1 + 1
    let base := make_safe_filename
      [stem, "p" ++ toString (pageIndex + 1), "rect" ++ toString n]
    let img : Option String :=
      if a.saveOk then some (pyJoin2 imgdir (base ++ ".png")) else none
    (n, addRect s.2 (categorize_color a.color) (img, clipTextOf a.clipRaw))
  else if st = some 9 ∨ st = some 11 then
    let txt := normalize_highlight_text a.extractedText
    if txt = "" then s
    else (s.1, addHighlight s.2 (categorize_color a.color) txt)
  else s

/-- The loop body on a full annotation: it only reads the observed part. -/
def processAnnot (stem imgdir : String) (pageIndex : Nat) (s : Nat × Groups)
    (a : Annot) : Nat × Groups :=
  processObs stem imgdir pageIndex s (obsOf a)

/-- One page of the outer loop: `rect_index` restarts at `0`, the grouping
containers persist. -/
def processPage (stem imgdir : String) (g : Groups) (pageIndex : Nat)
    (l : List Annot) : Groups :=
  (l.foldl (processAnnot stem imgdir pageIndex) (0, g)).2

/-- The whole collection phase over the document's pages in order. -/
def runGroups (stem imgdir : String) (pages : List (List Annot)) : Groups :=
  pages.enum.foldl (fun g ip => processPage stem imgdir g ip.1 ip.2)
    emptyGroups

/-! ### Markdown assembly -/

/-- The lines emitted for one color under `## Highlights`: skipped when the
(`if t`-filtered) item list is empty, otherwise a `###` header, a blank
line, one `- > text` item per entry, and a trailing blank line. -/
def hlSubsection (k : String) (items0 : List String) : List String :=
  let items := items0.filter (fun t => t ≠ "")
  if items.isEmpty then []
  else ["### " ++ colorTitle k, ""] ++
    items.map (fun t => "- > " ++ t) ++ [""]

/-- The `## Highlights` section. -/
def highlightsSection (g : Groups) : List String :=
  if orderKeys.any (fun k => !(g.highlights k).isEmpty) then
    ["## Highlights", ""] ++
      orderKeys.flatMap (fun k => hlSubsection k (g.highlights k))
  else []

/-- One note callout block. -/
def noteBlock (block : String) : List String :=
  ["> [!note] 注释"] ++
    ((pySplitlines block).filterMap
      (fun ln => if pyStrip ln = "" then none else some ("> " ++ pyStrip ln)))
    ++ [""]

/-- The `## Notes` section. -/
def notesSection (g : Groups) : List String :=
  if g.notes.isEmpty then []
  else ["## Notes", ""] ++ g.notes.flatMap noteBlock

/-- The lines emitted for one stored shape entry: the image link when the
image was saved, then a blank line. -/
def rectEntryLines (e : Option String × Option String) : List String :=
  (match e.1 with
   | some p => ["![](" ++ pyReplaceBS p ++ ")"]
   | none => []) ++ [""]

/-- The lines for one color under `## Rectangles / Figures`. -/
def rectSubsection (k : String)
    (items : List (Option String × Option String)) : List String :=
  if items.isEmpty then []
  else ["### " ++ colorTitle k, ""] ++ items.flatMap rectEntryLines

/-- The `## Rectangles / Figures` section. -/
def rectsSection (g : Groups) : List String :=
  if orderKeys.any (fun k => !(g.rects k).isEmpty) then
    ["## Rectangles / Figures", ""] ++
      orderKeys.flatMap (fun k => rectSubsection k (g.rects k))
  else []

/-- All output lines: title, then the three sections. -/
def buildLines (stem : String) (g : Groups) : List String :=
  ["# Annotations for " ++ stem, ""] ++ highlightsSection g ++
    notesSection g ++ rectsSection g

/-- `"\n".join(lines).rstrip() + "\n"`. -/
def buildMarkdown (stem : String) (g : Groups) : String :=
  pyRstrip (String.intercalate "\n" (buildLines stem g)) ++ "\n"

/-- The output lines of a run over explicit pages. -/
def buildLinesP (stem imgdir : String) (pages : List (List Annot)) :
    List String :=
  buildLines stem (runGroups stem imgdir pages)

/-- The output path: `out_md` when given, else
`splitext(pdf_path)[0] + ".annotations.md"`. -/
def outPathOf (pdf_path : String) (out_md : Option String) : String :=
  match out_md with
  | some o => o
  | none => splitextRoot pdf_path ++ ".annotations.md"

/-- `export_pdf_annotations` as a pure function.  `pdfExists` is the outcome
of `os.path.isfile(pdf_path)`, `cwd` of `os.getcwd()`; the result is the
raised error, or the returned path together with the list of (path, content)
Markdown writes performed. -/
def export_model (pdfExists : Bool) (pdf_path : String)
    (out_md : Option String) (img_dir cwd : String)
    (pages : List (List Annot)) :
    Except String (String × List (String × String)) :=
  if pdfExists = false then
    Except.error ("File not found: " ++ pdf_path)
  else
    let out := outPathOf pdf_path out_md
    let out_dir := pyOrS (pyDirname out) cwd
    let image_dir := pyJoin2 out_dir img_dir
    let stem := splitextRoot (pyBasename pdf_path)
    let md := buildMarkdown stem (runGroups stem image_dir pages)
    Except.ok (out, [(out, md)])

/-! ### Characterizing the grouping folds -/

/-- What one annotation contributes to `highlight_groups[k]`: highlight,
underline and strike-out annotations whose whitespace-free extracted text is
non-empty contribute that text exactly when their color categorizes to
`k`. -/
def hlContrib (k : String) (a : Annot) : Option String :=
  if subtypeOf a.typeCode = some 8 ∨ subtypeOf a.typeCode = some 9 ∨
      subtypeOf a.typeCode = some 11 then
    if normalize_highlight_text a.extractedText = "" then none
    else if categorize_color a.color = k then
      some (normalize_highlight_text a.extractedText)
    else none
  else none

theorem addHighlight_highlights (g : Groups) (k₀ t k : String) :
    (addHighlight g k₀ t).highlights k =
      if k = k₀ then g.highlights k ++ [t] else g.highlights k := rfl

theorem addRect_rects (g : Groups) (k₀ : String)
    (e : Option String × Option String) (k : String) :
    (addRect g k₀ e).rects k =
      if k = k₀ then g.rects k ++ [e] else g.rects k := rfl

theorem addRect_highlights (g : Groups) (k₀ : String)
    (e : Option String × Option String) :
    (addRect g k₀ e).highlights = g.highlights := rfl

theorem addHighlight_rects (g : Groups) (k₀ t : String) :
    (addHighlight g k₀ t).rects = g.rects := rfl

theorem processAnnot_highlights (stem imgdir : String) (i : Nat)
    (s : Nat × Groups) (a : Annot) (k : String) :
    ((processAnnot stem imgdir i s a).2).highlights k =
      s.2.highlights k ++ (hlContrib k a).toList := by
  unfold processAnnot processObs obsOf hlContrib
  cases hst : subtypeOf a.typeCode with
  | none => simp [hst]
  | some n =>
    by_cases h8 : n = 8
    · subst h8
      by_cases htxt : normalize_highlight_text a.extractedText = ""
      · simp [hst, htxt]
      · by_cases hc : categorize_color a.color = k
        · simp [hst, htxt, hc, addHighlight_highlights]
        · have hck : ¬(k = categorize_color a.color) := fun h => hc h.symm
          simp [hst, htxt, hc, hck, addHighlight_highlights]
    · by_cases h02 : n = 0 ∨ n = 2
      · simp only [hst, Option.some.injEq, h8]
        rcases h02 with h0 | h2 <;> subst_vars <;>
          (by_cases hcnt : noteContent a.content = "" <;> simp [hcnt])
      · by_cases h45 : n = 4 ∨ n = 5
        · have h9 : ¬(n = 9 ∨ n = 11) := by omega
          simp only [hst, Option.some.injEq, h8, h02, h45, h9]
          rcases h45 with h | h <;> subst_vars <;>
            simp [addRect_highlights]
        · by_cases h911 : n = 9 ∨ n = 11
          · simp only [hst, Option.some.injEq, h8, h02, h45, h911]
            by_cases htxt : normalize_highlight_text a.extractedText = ""
            · simp [htxt, h911]
            · by_cases hc : categorize_color a.color = k
              · simp [htxt, hc, h911, addHighlight_highlights]
              · have hck : ¬(k = categorize_color a.color) :=
                  fun h => hc h.symm
                simp [htxt, hc, hck, h911, addHighlight_highlights]
          · simp [hst, h8, h02, h45, h911]

theorem foldl_highlights (stem imgdir : String) (i : Nat) (k : String) :
    ∀ (l : List Annot) (s : Nat × Groups),
      ((l.foldl (processAnnot stem imgdir i) s).2).highlights k =
        s.2.highlights k ++ l.filterMap (hlContrib k) := by
  intro l
  induction l with
  | nil => intro s; simp
  | cons a rest ih =>
    intro s
    rw [List.foldl_cons, ih]
    rw [processAnnot_highlights]
    cases hc : hlContrib k a <;> simp [List.filterMap_cons, hc]

theorem processPage_highlights (stem imgdir : String) (g : Groups) (i : Nat)
    (l : List Annot) (k : String) :
    (processPage stem imgdir g i l).highlights k =
      g.highlights k ++ l.filterMap (hlContrib k) := by
  unfold processPage
  exact foldl_highlights stem imgdir i k l (0, g)

theorem runGroups_highlights (stem imgdir : String)
    (pages : List (List Annot)) (k : String) :
    (runGroups stem imgdir pages).highlights k =
      pages.flatten.filterMap (hlContrib k) := by
  unfold runGroups
  have main : ∀ (ps : List (Nat × List Annot)) (g : Groups),
      ((ps.foldl (fun g ip => processPage stem imgdir g ip.1 ip.2) g)).highlights k
        = g.highlights k ++ (ps.map Prod.snd).flatten.filterMap (hlContrib k) := by
    intro ps
    induction ps with
    | nil => intro g; simp
    | cons ip rest ih =>
      intro g
      rw [List.foldl_cons, ih, processPage_highlights]
      simp [List.filterMap_append]
  rw [main]
  simp [emptyGroups, List.enum_map_snd]

/-- Every stored highlight text is non-empty. -/
theorem runGroups_highlights_ne (stem imgdir : String)
    (pages : List (List Annot)) (k t : String)
    (ht : t ∈ (runGroups stem imgdir pages).highlights k) : t ≠ "" := by
  rw [runGroups_highlights] at ht
  obtain ⟨a, -, ha⟩ := List.mem_filterMap.mp ht
  unfold hlContrib at ha
  split_ifs at ha with hsub htxt hcat
  simp at ha
  exact fun hteq => htxt (by rw [ha, hteq])

/-- Shape of every saved-image path stored in `rect_groups`. -/
def goodRectEntry (stem imgdir : String)
    (e : Option String × Option String) : Prop :=
  ∀ p, e.1 = some p → ∃ (i n : Nat), p = pyJoin2 imgdir
    (make_safe_filename [stem, "p" ++ toString i, "rect" ++ toString n]
      ++ ".png")

theorem processAnnot_rects (stem imgdir : String) (i : Nat)
    (s : Nat × Groups) (a : Annot) (k : String)
    (e : Option String × Option String)
    (he : e ∈ ((processAnnot stem imgdir i s a).2).rects k) :
    e ∈ s.2.rects k ∨ (k ∈ orderKeys ∧ goodRectEntry stem imgdir e) := by
  unfold processAnnot processObs obsOf at he
  cases hst : subtypeOf a.typeCode with
  | none => rw [hst] at he; simp at he; exact Or.inl he
  | some n =>
    rw [hst] at he
    by_cases h8 : n = 8
    · subst h8
      simp only [Option.some.injEq] at he
      by_cases htxt : normalize_highlight_text a.extractedText = "" <;>
        simp [htxt] at he <;> exact Or.inl he
    · by_cases h02 : n = 0 ∨ n = 2
      · have h45 : ¬(n = 4 ∨ n = 5) := by omega
        simp only [Option.some.injEq, h8, h02, h45, if_false, if_true] at he
        rcases h02 with h | h <;> subst_vars <;>
          (by_cases hcnt : noteContent a.content = "" <;>
            simp [hcnt] at he) <;> exact Or.inl he
      · by_cases h45 : n = 4 ∨ n = 5
        · simp only [Option.some.injEq, h8, h02, h45, if_true, if_false] at he
          have he' : e ∈ (addRect s.2 (categorize_color a.color)
              ((if a.saveOk = true then
                  some (pyJoin2 imgdir (make_safe_filename
                    [stem, "p" ++ toString (i + 1),
                      "rect" ++ toString (s.1 + 1)] ++ ".png"))
                else none), clipTextOf a.clipRaw)).rects k := by
            rcases h45 with h | h <;> subst_vars <;> simpa using he
          rw [addRect_rects] at he'
          by_cases hc : k = categorize_color a.color
          · rw [if_pos hc] at he'
            rcases List.mem_append.mp he' with hold | hnew
            · exact Or.inl hold
            · refine Or.inr ⟨hc ▸ categorize_color_mem a.color, ?_⟩
              have hee := List.mem_singleton.mp hnew
              subst hee
              intro p hp
              by_cases hsv : a.saveOk = true <;> simp [hsv] at hp
              exact ⟨i + 1, s.1 + 1, hp.symm⟩
          · rw [if_neg hc] at he'
            exact Or.inl he'
        · by_cases h911 : n = 9 ∨ n = 11
          · simp only [Option.some.injEq, h8, h02, h45, h911, if_true,
              if_false] at he
            by_cases htxt : normalize_highlight_text a.extractedText = "" <;>
              simp [htxt, h911] at he <;> exact Or.inl he
          · simp [h8, h02, h45, h911] at he
            exact Or.inl he

theorem foldl_rects (stem imgdir : String) (i : Nat) (k : String) :
    ∀ (l : List Annot) (s : Nat × Groups)
      (e : Option String × Option String),
      e ∈ ((l.foldl (processAnnot stem imgdir i) s).2).rects k →
        e ∈ s.2.rects k ∨ (k ∈ orderKeys ∧ goodRectEntry stem imgdir e) := by
  intro l
  induction l with
  | nil => intro s e he; exact Or.inl he
  | cons a rest ih =>
    intro s e he
    rw [List.foldl_cons] at he
    rcases ih (processAnnot stem imgdir i s a) e he with he' | hgood
    · exact processAnnot_rects stem imgdir i s a k e he'
    · exact Or.inr hgood

theorem runGroups_rects_mem (stem imgdir : String)
    (pages : List (List Annot)) (k : String)
    (e : Option String × Option String)
    (he : e ∈ (runGroups stem imgdir pages).rects k) :
    k ∈ orderKeys ∧ goodRectEntry stem imgdir e := by
  unfold runGroups at he
  have main : ∀ (ps : List (Nat × List Annot)) (g : Groups),
      e ∈ ((ps.foldl (fun g ip => processPage stem imgdir g ip.1 ip.2) g)).rects k →
        e ∈ g.rects k ∨ (k ∈ orderKeys ∧ goodRectEntry stem imgdir e) := by
    intro ps
    induction ps with
    | nil => intro g hg; exact Or.inl hg
    | cons ip rest ih =>
      intro g hg
      rcases ih _ hg with hg' | hgood
      · unfold processPage at hg'
        exact foldl_rects stem imgdir ip.1 k ip.2 (0, g) e hg'
      · exact Or.inr hgood
  rcases main pages.enum emptyGroups he with h | h
  · simp [emptyGroups] at h
  · exact h

/-- The link line of a stored entry with a saved image appears among the
output lines. -/
theorem mem_buildLines_of_rect (stem : String) (g : Groups) (k : String)
    (e : Option String × Option String) (p : String)
    (hk : k ∈ orderKeys) (he : e ∈ g.rects k) (hp : e.1 = some p) :
    ("![](" ++ pyReplaceBS p ++ ")") ∈ buildLines stem g := by
  have hne : g.rects k ≠ [] := List.ne_nil_of_mem he
  have hany : orderKeys.any (fun k => !(g.rects k).isEmpty) = true := by
    rw [List.any_eq_true]
    exact ⟨k, hk, by simp [hne]⟩
  have hline : ("![](" ++ pyReplaceBS p ++ ")") ∈ rectEntryLines e := by
    unfold rectEntryLines
    rw [hp]
    simp
  have hsub : ("![](" ++ pyReplaceBS p ++ ")") ∈ rectSubsection k (g.rects k) := by
    unfold rectSubsection
    rw [if_neg (by simp [hne])]
    refine List.mem_append_right _ ?_
    exact List.mem_flatMap.mpr ⟨e, he, hline⟩
  have hsec : ("![](" ++ pyReplaceBS p ++ ")") ∈ rectsSection g := by
    unfold rectsSection
    rw [if_pos hany]
    refine List.mem_append_right _ ?_
    exact List.mem_flatMap.mpr ⟨k, hk, hsub⟩
  unfold buildLines
  simp only [List.mem_append]
  tauto

/-! ### Determinism: the output depends only on the observed attributes -/

/-- One page of the loop, on observed attributes only. -/
def processPageObs (stem imgdir : String) (g : Groups) (pageIndex : Nat)
    (l : List AnnotObs) : Groups :=
  (l.foldl (processObs stem imgdir pageIndex) (0, g)).2

/-- The collection phase on observed attributes only. -/
def runGroupsObs (stem imgdir : String) (pages : List (List AnnotObs)) :
    Groups :=
  pages.enum.foldl (fun g ip => processPageObs stem imgdir g ip.1 ip.2)
    emptyGroups

theorem processPage_eq_obs (stem imgdir : String) (g : Groups) (i : Nat)
    (l : List Annot) :
    processPage stem imgdir g i l =
      processPageObs stem imgdir g i (l.map obsOf) := by
  unfold processPage processPageObs
  rw [List.foldl_map]
  rfl

theorem runGroups_eq_obs (stem imgdir : String) (pages : List (List Annot)) :
    runGroups stem imgdir pages =
      runGroupsObs stem imgdir (pages.map (List.map obsOf)) := by
  unfold runGroups runGroupsObs
  rw [List.enum_map, List.foldl_map]
  congr 1
  funext g ip
  rw [processPage_eq_obs]
  rfl

/-! ### Section structure lemmas -/

theorem hlSubsection_nil_iff (k : String) (items : List String)
    (hne : ∀ t ∈ items, t ≠ "") :
    hlSubsection k items = [] ↔ items = [] := by
  unfold hlSubsection
  have hfil : items.filter (fun t => t ≠ "") = items := by
    rw [List.filter_eq_self]
    intro a ha
    simpa using hne a ha
  rw [hfil]
  cases items <;> simp

theorem rectSubsection_nil_iff (k : String)
    (items : List (Option String × Option String)) :
    rectSubsection k items = [] ↔ items = [] := by
  unfold rectSubsection
  cases items <;> simp

/-! ### Sample annotations used in concrete instances -/

/-- A highlight annotation (two copies differing only in geometry). -/
def annotHL1 : Annot := ⟨8, (250, 200, 10), "some text", "", false, "", (0, 0, 1, 1)⟩

/-- Same observed attributes as `annotHL1`, different rectangle. -/
def annotHL2 : Annot := ⟨8, (250, 200, 10), "some text", "", false, "", (5, 6, 7, 8)⟩

/-- A sticky-note (Text, type code 0) annotation with content. -/
def textAnnot : Annot := ⟨0, (255, 212, 0), "", "hello", false, "", (0, 0, 1, 1)⟩

/-- A free-text (type code 2) annotation with the same content. -/
def freeTextAnnot : Annot := ⟨2, (255, 212, 0), "", "hello", false, "", (0, 0, 1, 1)⟩

/-- A square annotation whose image save fails. -/
def sqFailAnnot : Annot := ⟨4, (255, 212, 0), "", "", false, "", (0, 0, 1, 1)⟩

/-- A square annotation whose image save succeeds. -/
def sqOkAnnot : Annot := ⟨4, (255, 212, 0), "", "", true, "", (0, 0, 1, 1)⟩

/-- An underline annotation. -/
def annotUL : Annot := ⟨9, (250, 200, 10), "abc def", "", false, "", (0, 0, 1, 1)⟩

/-! ### The claims -/

/-- C1: for every integer RGB triple, `categorize_color` returns one of the
five keys yellow, red, blue, green, purple, and the returned key's fixed
reference point attains the minimum squared Euclidean distance to the input
over the five reference points. -/
theorem claim_C1_categorize_nearest (rgb : Int × Int × Int) :
    categorize_color rgb ∈ orderKeys ∧
    ∃ ref, (categorize_color rgb, ref) ∈ refsList ∧
      ∀ kv ∈ refsList, dist2 rgb ref ≤ dist2 rgb kv.2 :=
  ⟨categorize_color_mem rgb, categorize_color_spec rgb⟩

/-- C2: the Markdown assembly is deterministic: two runs that observe the
same per-annotation attributes (subtype codes, colors, extracted texts, note
contents, image-save results) in the same order produce the identical
Markdown string, whatever the unobserved data (here the raw rectangles)
are. -/
theorem claim_C2_markdown_deterministic (stem imgdir : String)
    (pages1 pages2 : List (List Annot))
    (h : pages1.map (List.map obsOf) = pages2.map (List.map obsOf)) :
    buildMarkdown stem (runGroups stem imgdir pages1) =
      buildMarkdown stem (runGroups stem imgdir pages2) := by
  rw [runGroups_eq_obs, runGroups_eq_obs, h]

/-- C2 witness: two concrete runs whose annotations differ only in their
rectangles produce the same Markdown. -/
theorem claim_C2_markdown_deterministic_witness :
    buildMarkdown "doc" (runGroups "doc" "imgs" [[annotHL1]]) =
      buildMarkdown "doc" (runGroups "doc" "imgs" [[annotHL2]]) :=
  claim_C2_markdown_deterministic "doc" "imgs" [[annotHL1]] [[annotHL2]] rfl

/-- C3: in the generated report both the Highlights and the
Rectangles/Figures sections list their per-color subsections in the fixed
order yellow, red, blue, green, purple, and a color's subsection is emitted
(non-empty) exactly when its group is non-empty. -/
theorem claim_C3_sections_color_order (stem imgdir : String)
    (pages : List (List Annot)) (k : String) (g : Groups)
    (hg : g = runGroups stem imgdir pages) :
    highlightsSection g =
      (if orderKeys.any (fun c => !(g.highlights c).isEmpty) then
        ["## Highlights", ""] ++ hlSubsection "yellow" (g.highlights "yellow")
          ++ hlSubsection "red" (g.highlights "red")
          ++ hlSubsection "blue" (g.highlights "blue")
          ++ hlSubsection "green" (g.highlights "green")
          ++ hlSubsection "purple" (g.highlights "purple")
      else []) ∧
    rectsSection g =
      (if orderKeys.any (fun c => !(g.rects c).isEmpty) then
        ["## Rectangles / Figures", ""]
          ++ rectSubsection "yellow" (g.rects "yellow")
          ++ rectSubsection "red" (g.rects "red")
          ++ rectSubsection "blue" (g.rects "blue")
          ++ rectSubsection "green" (g.rects "green")
          ++ rectSubsection "purple" (g.rects "purple")
      else []) ∧
    (hlSubsection k (g.highlights k) = [] ↔ g.highlights k = []) ∧
    (rectSubsection k (g.rects k) = [] ↔ g.rects k = []) := by
  refine ⟨?_, ?_, ?_, rectSubsection_nil_iff k (g.rects k)⟩
  · unfold highlightsSection
    split_ifs <;> simp [orderKeys, List.append_assoc]
  · unfold rectsSection
    split_ifs <;> simp [orderKeys, List.append_assoc]
  · refine hlSubsection_nil_iff k (g.highlights k) ?_
    intro t ht
    exact runGroups_highlights_ne stem imgdir pages k t (hg ▸ ht)

/-- C3 witness: the emptiness equivalence at a concrete run. -/
theorem claim_C3_sections_color_order_witness :
    hlSubsection "yellow"
        ((runGroups "doc" "imgs" [[annotHL1]]).highlights "yellow") = [] ↔
      (runGroups "doc" "imgs" [[annotHL1]]).highlights "yellow" = [] :=
  (claim_C3_sections_color_order "doc" "imgs" [[annotHL1]] "yellow"
    (runGroups "doc" "imgs" [[annotHL1]]) rfl).2.2.1

/-- C4: the stored highlight group of a color is exactly the encounter-order
list (pages in ascending order, chain order within a page) of the
whitespace-free extracted texts of the qualifying markup annotations of that
color; no stored text is empty, so the rendered subsection emits exactly one
item line of the form `- > text` per stored text, in that order. -/
theorem claim_C4_highlight_items (stem imgdir : String)
    (pages : List (List Annot)) (k : String) (g : Groups)
    (hg : g = runGroups stem imgdir pages) :
    g.highlights k = pages.flatten.filterMap (hlContrib k) ∧
    (g.highlights k).filter (fun t => t ≠ "") = g.highlights k ∧
    hlSubsection k (g.highlights k) =
      (if (g.highlights k).isEmpty then []
       else ["### " ++ colorTitle k, ""]
         ++ (g.highlights k).map (fun t => "- > " ++ t) ++ [""]) := by
  have hne : ∀ t ∈ g.highlights k, t ≠ "" := by
    intro t ht
    exact runGroups_highlights_ne stem imgdir pages k t (hg ▸ ht)
  have hfil : (g.highlights k).filter (fun t => t ≠ "") = g.highlights k := by
    rw [List.filter_eq_self]
    intro a ha
    simpa using hne a ha
  refine ⟨hg ▸ runGroups_highlights stem imgdir pages k, hfil, ?_⟩
  unfold hlSubsection
  rw [hfil]

/-- C4 witness: the characterization at a concrete run. -/
theorem claim_C4_highlight_items_witness :
    (runGroups "doc" "imgs" [[annotHL1]]).highlights "yellow" =
      [[annotHL1]].flatten.filterMap (hlContrib "yellow") :=
  (claim_C4_highlight_items "doc" "imgs" [[annotHL1]] "yellow"
    (runGroups "doc" "imgs" [[annotHL1]]) rfl).1

/-- C5 (code bug): a sticky-note annotation (type code 0) with non-blank
content is silently dropped because `annot.type[0] or ""` turns the falsy
integer `0` into `""`, which matches no subtype constant; an otherwise
identical free-text annotation (type code 2) is rendered as the claimed
callout block. -/
theorem claim_C5_text_note_dropped :
    buildLinesP "doc" "imgs" [[textAnnot]] = ["# Annotations for doc", ""] ∧
    buildLinesP "doc" "imgs" [[freeTextAnnot]] =
      ["# Annotations for doc", "", "## Notes", "", "> [!note] 注释",
        "> hello", ""] := by
  constructor <;> rfl

/-- C6 counterexample: a run containing a square annotation whose image save
fails produces a report with no image link at all (no line starts with `!`),
refuting the unconditional claim. -/
theorem claim_C6_counterexample :
    sqFailAnnot.typeCode = 4 ∧
    buildLinesP "doc" "imgs" [[sqFailAnnot]] =
      ["# Annotations for doc", "", "## Rectangles / Figures", "",
        "### 黄色（重点）", "", ""] ∧
    ∀ l ∈ buildLinesP "doc" "imgs" [[sqFailAnnot]],
      l.toList.head? ≠ some '!' := by
  refine ⟨rfl, rfl, ?_⟩
  decide

/-- C6 (amended): every stored shape entry whose image save succeeded holds
a path of the form `img_dir/<sanitized base name>.png` built from the PDF
stem, the 1-based page number and the per-page rectangle counter, and the
report contains the image link for that path (backslashes replaced by
slashes). -/
theorem claim_C6_saved_rect_link (stem imgdir : String)
    (pages : List (List Annot)) (k p : String)
    (e : Option String × Option String)
    (he : e ∈ (runGroups stem imgdir pages).rects k)
    (hp : e.1 = some p) :
    (∃ (i n : Nat), p = pyJoin2 imgdir
      (make_safe_filename [stem, "p" ++ toString i, "rect" ++ toString n]
        ++ ".png")) ∧
    ("![](" ++ pyReplaceBS p ++ ")") ∈ buildLinesP stem imgdir pages := by
  obtain ⟨hk, hgood⟩ := runGroups_rects_mem stem imgdir pages k e he
  exact ⟨hgood p hp,
    mem_buildLines_of_rect stem (runGroups stem imgdir pages) k e p hk he hp⟩

/-- C6 witness: a successfully saved square annotation yields the link. -/
theorem claim_C6_saved_rect_link_witness :
    (∃ (i n : Nat), "imgs/doc_p1_rect1.png" = pyJoin2 "imgs"
      (make_safe_filename ["doc", "p" ++ toString i, "rect" ++ toString n]
        ++ ".png")) ∧
    ("![](" ++ pyReplaceBS "imgs/doc_p1_rect1.png" ++ ")")
      ∈ buildLinesP "doc" "imgs" [[sqOkAnnot]] :=
  claim_C6_saved_rect_link "doc" "imgs" [[sqOkAnnot]] "yellow"
    "imgs/doc_p1_rect1.png" (some "imgs/doc_p1_rect1.png", none)
    (by decide) rfl

/-- C7: when the PDF does not exist the export raises FileNotFoundError and
writes nothing; otherwise it writes exactly one Markdown file at the
returned path, which is `out_md` when given and otherwise the PDF path with
its extension replaced by `.annotations.md`. -/
theorem claim_C7_export_paths (pdfExists : Bool) (pdf_path : String)
    (out_md : Option String) (img_dir cwd : String)
    (pages : List (List Annot)) :
    (pdfExists = false →
      export_model pdfExists pdf_path out_md img_dir cwd pages =
        Except.error ("File not found: " ++ pdf_path)) ∧
    (pdfExists = true →
      ∃ md, export_model pdfExists pdf_path out_md img_dir cwd pages =
        Except.ok (outPathOf pdf_path out_md,
          [(outPathOf pdf_path out_md, md)])) ∧
    outPathOf pdf_path none = splitextRoot pdf_path ++ ".annotations.md" ∧
    (∀ o, outPathOf pdf_path (some o) = o) := by
  refine ⟨?_, ?_, rfl, fun o => rfl⟩
  · intro h; subst h; rfl
  · intro h; subst h
    exact ⟨_, rfl⟩

/-- C7 witness: both branches at concrete inputs. -/
theorem claim_C7_export_paths_witness :
    export_model false "doc.pdf" none "images" "/cwd" [] =
      Except.error ("File not found: " ++ "doc.pdf") ∧
    ∃ md, export_model true "doc.pdf" none "images" "/cwd" [] =
      Except.ok (outPathOf "doc.pdf" none,
        [(outPathOf "doc.pdf" none, md)]) :=
  ⟨(claim_C7_export_paths false "doc.pdf" none "images" "/cwd" []).1 rfl,
    (claim_C7_export_paths true "doc.pdf" none "images" "/cwd" []).2.1 rfl⟩

/-- C8: an underline or strike-out annotation is processed exactly like the
same annotation with the highlight subtype: same state update, hence the
same highlight group entry and rendering. -/
theorem claim_C8_underline_strikeout (stem imgdir : String) (i : Nat)
    (s : Nat × Groups) (a : Annot)
    (h : a.typeCode = 9 ∨ a.typeCode = 11) :
    processAnnot stem imgdir i s a =
      processAnnot stem imgdir i s { a with typeCode := 8 } := by
  unfold processAnnot processObs obsOf
  rcases h with h | h <;> rw [h] <;> simp [subtypeOf]

/-- C8 witness: a concrete underline annotation. -/
theorem claim_C8_underline_strikeout_witness :
    (annotUL.typeCode = 9 ∨ annotUL.typeCode = 11) ∧
    processAnnot "doc" "imgs" 0 (0, emptyGroups) annotUL =
      processAnnot "doc" "imgs" 0 (0, emptyGroups)
        { annotUL with typeCode := 8 } :=
  ⟨Or.inl rfl,
    claim_C8_underline_strikeout "doc" "imgs" 0 (0, emptyGroups) annotUL
      (Or.inl rfl)⟩

/-- C9: an annotation exposing neither a stroke nor a fill color, or whose
color attributes raise on access, gets the default color (255, 212, 0),
which categorizes as yellow with distance zero to the yellow reference. -/
theorem claim_C9_default_color_yellow
    (access : Option (Option (List ℚ) × Option (List ℚ)))
    (h : access = none ∨ ∃ st fl, access = some (st, fl) ∧
      pyTruthyColor st = false ∧ pyTruthyColor fl = false) :
    rgb_from_annot access = Except.ok (255, 212, 0) ∧
    categorize_color (255, 212, 0) = "yellow" ∧
    dist2 (255, 212, 0) (255, 212, 0) = 0 := by
  refine ⟨?_, by decide, by decide⟩
  rcases h with h | ⟨st, fl, h, hs, hf⟩ <;> subst h
  · rfl
  · simp [rgb_from_annot, hs, hf]

/-- C9 witness: raising color access yields the default and yellow. -/
theorem claim_C9_default_color_yellow_witness :
    rgb_from_annot none = Except.ok (255, 212, 0) ∧
    categorize_color (255, 212, 0) = "yellow" ∧
    dist2 (255, 212, 0) (255, 212, 0) = 0 :=
  claim_C9_default_color_yellow none (Or.inl rfl)

/-- C10: every character of a `make_safe_filename` result lies in the class
`[A-Za-z0-9_-]`; in particular the generated image base names contain no
space, dot or path separator. -/
theorem claim_C10_safe_filename_charset (parts : List String) :
    (make_safe_filename parts).toList.all isAllowedChar = true := by
  unfold make_safe_filename
  have h : ∀ (l : List Char),
      (l.filter isAllowedChar).all isAllowedChar = true := by
    intro l
    rw [List.all_eq_true]
    intro c hc
    exact (List.mem_filter.mp hc).2
  exact h _

end PdfNotes
